import Mathlib

/-!
Shallow embedding of the Storj satellite audit, reputation, bandwidth-agreement
and repair-queue subsystems, translated from the Go sources, together with
theorems settling the specification claims about them.

Conventions of the embedding:
* `storj.NodeID` values are represented by `Nat`; byte strings by `List Nat`.
* Go `int32`/`int64` fields are represented by `Int`; Go integer division by
  `Int.tdiv` (truncation toward zero, as in Go).
* Go maps are represented by association lists with `find?` lookup and
  replace-or-append insertion.
* Go `float64` arithmetic on ratio fields is modelled exactly over `Rat`.
* External effects (database reads, network downloads, the infectious FEC
  library, SHA-256) enter as explicit inputs or function parameters of the
  embedded operations.
-/

namespace StorjSpec

/-! ## Data model: pointers and redundancy (pkg/pb, satellite side) -/

/-- RedundancyScheme fields of a remote pointer (`pb.RedundancyScheme`):
`min_req` = k, `repair_threshold` = m, `success_threshold` = o, `total` = n,
`erasure_share_size` in bytes. -/
structure Redundancy where
  minReq : Int
  repairThreshold : Int
  successThreshold : Int
  total : Int
  erasureShareSize : Int
deriving DecidableEq

/-- RemotePiece of a pointer: `piece_num` and the node holding that piece. -/
structure RemotePiece where
  pieceNum : Nat
  nodeId : Nat
deriving DecidableEq

/-- The satellite's Pointer record for one remote segment, with the fields the
audit code reads: creation date (a value, compared by `!=` in
`checkIfSegmentAltered`), segment size, redundancy, root piece id and the
remote piece list. -/
structure Pointer where
  creationDate : Int
  segmentSize : Int
  rootPieceId : Nat
  redundancy : Redundancy
  pieces : List RemotePiece
deriving DecidableEq

/-! ## Share download outcomes (satellite/audit, part_012) -/

/-- RPC status code as tested by `errs2.IsRPC(err, code)`. `other` covers both
a different code and an error carrying no RPC status at all. -/
inductive RpcCode where
  | unknown
  | notFound
  | deadlineExceeded
  | other
deriving DecidableEq

/-- Abstraction of the error attached to a downloaded share: whether it is in
the `rpc.Error` class (a dial-phase transport error, wrapped by `GetShare`),
whether `errs.Is(err, context.DeadlineExceeded)` holds, and its RPC status
code as seen by `errs2.IsRPC`. -/
structure ShareError where
  isRpcClass : Bool
  isCtxDeadlineExceeded : Bool
  status : RpcCode
deriving DecidableEq

/-- Share as collected by `DownloadShares`: `Error == nil` is `error = none`. -/
structure Share where
  error : Option ShareError
  pieceNum : Nat
  nodeID : Nat
  data : List Nat
deriving DecidableEq

instance : Inhabited Share := ⟨⟨none, 0, 0, []⟩⟩

/-- Lookup in the Go map `shares map[int]Share`; a missing key yields the zero
`Share`, as Go map indexing does. -/
def lookupShare (shares : List Share) (pn : Nat) : Share :=
  (shares.find? (fun s => s.pieceNum == pn)).getD default

/-! ## Verify: classification of download outcomes (part_012 lines 176-217) -/

/-- State built by the classification loop of `Verifier.Verify`:
`sharesToAudit` (the candidates), `offlineNodes`, `failedNodes` and the
`containedNodes` map keyed by piece number. -/
structure ClassifyState where
  sharesToAudit : List Share
  offlineNodes : List Nat
  failedNodes : List Nat
  containedNodes : List (Nat × Nat)
deriving DecidableEq

/-- Insertion into the Go map `containedNodes[pieceNum] = nodeID`:
replace the entry with that key if present, append otherwise. -/
def insertContained (m : List (Nat × Nat)) (pn node : Nat) : List (Nat × Nat) :=
  if m.any (fun e => e.1 == pn) then
    m.map (fun e => if e.1 == pn then (pn, node) else e)
  else
    m ++ [(pn, node)]

/-- One iteration of the classification loop of `Verifier.Verify`
(part_012 lines 176-217), translated branch for branch.  Note that the
"unknown transport error" branch (line 196) does not `continue`; control
falls through into the `NotFound` / `DeadlineExceeded` checks below it. -/
def classifyStep (st : ClassifyState) (share : Share) : ClassifyState :=
  match share.error with
  | none =>
      -- no error: share downloaded successfully, candidate for verification
      { st with sharesToAudit := st.sharesToAudit ++ [share] }
  | some e =>
      if e.isRpcClass then
        if e.isCtxDeadlineExceeded then
          -- dial timeout: offline
          { st with offlineNodes := st.offlineNodes ++ [share.nodeID] }
        else if e.status == RpcCode.unknown then
          -- dial failed: offline
          { st with offlineNodes := st.offlineNodes ++ [share.nodeID] }
        else
          -- unknown transport error: contained; no continue, falls through
          let st := { st with
            containedNodes := insertContained st.containedNodes share.pieceNum share.nodeID }
          if e.status == RpcCode.notFound then
            { st with failedNodes := st.failedNodes ++ [share.nodeID] }
          else if e.status == RpcCode.deadlineExceeded then
            { st with
              containedNodes := insertContained st.containedNodes share.pieceNum share.nodeID }
          else
            { st with
              containedNodes := insertContained st.containedNodes share.pieceNum share.nodeID }
      else
        if e.status == RpcCode.notFound then
          -- missing share: audit failed
          { st with failedNodes := st.failedNodes ++ [share.nodeID] }
        else if e.status == RpcCode.deadlineExceeded then
          -- dial successful but download timed out: contained
          { st with
            containedNodes := insertContained st.containedNodes share.pieceNum share.nodeID }
        else
          -- unknown error: contained
          { st with
            containedNodes := insertContained st.containedNodes share.pieceNum share.nodeID }

/-- The whole classification loop, starting from the offline nodes computed by
`getOfflineNodes` and empty candidate / failed / contained collections. -/
def classifyShares (shares : List Share) (offlines0 : List Nat) : ClassifyState :=
  shares.foldl classifyStep ⟨[], offlines0, [], []⟩

/-! ## Verify: surrounding helpers (part_012) -/

/-- Order limit as far as the audit code inspects it: the storage node it
addresses (`limit.GetLimit().StorageNodeId`). -/
structure OrderLimitStub where
  storageNodeId : Nat
deriving DecidableEq

/-- PendingAudit record handed to containment (fields as written by
`createPendingAudits`). -/
structure PendingAudit where
  nodeID : Nat
  pieceID : Nat
  stripeIndex : Int
  shareSize : Int
  expectedShareHash : List Nat
  path : String
deriving DecidableEq

/-- Audit Report returned by `Verify` / `Reverify`; nil Go slices are `[]`. -/
structure Report where
  successes : List Nat := []
  fails : List Nat := []
  offlines : List Nat := []
  pendingAudits : List PendingAudit := []
deriving DecidableEq

/-- Errors distinguished by the audit claims: `ErrSegmentDeleted` (also used
when the creation date changed), `ErrNotEnoughShares`, and everything else. -/
inductive VerifyErr where
  | segmentDeleted
  | notEnoughShares
  | otherErr
deriving DecidableEq

/-- `getOfflineNodes` (part_012 lines 713-730): the pointer's nodes that have
no order limit and are not in the skip set. -/
def getOfflineNodes (p : Pointer) (limits : List (Option OrderLimitStub))
    (skip : List Nat) : List Nat :=
  let nodesWithLimit := (limits.filterMap id).map (fun l => l.storageNodeId)
  (p.pieces.filter (fun pc =>
    !(nodesWithLimit.contains pc.nodeId) && !(skip.contains pc.nodeId))).map
    (fun pc => pc.nodeId)

/-- `getSuccessNodes` (part_012 lines 733-753): every downloaded share whose
node is in none of the failed / offline / contained collections. -/
def getSuccessNodes (shares : List Share) (failedNodes offlineNodes : List Nat)
    (containedNodes : List (Nat × Nat)) : List Nat :=
  let bad := failedNodes ++ offlineNodes ++ containedNodes.map (fun e => e.2)
  (shares.filter (fun s => !(bad.contains s.nodeID))).map (fun s => s.nodeID)

/-- `checkIfSegmentAltered` (part_012 lines 649-669): re-fetch the pointer
(the re-fetch result is the `newPointer` argument, `none` when the key is
gone) and compare creation dates; both failures surface as
`ErrSegmentDeleted`. -/
def checkIfSegmentAltered (oldPointer : Pointer) (newPointer : Option Pointer) :
    Except VerifyErr Pointer :=
  match newPointer with
  | none => .error VerifyErr.segmentDeleted
  | some np =>
      if oldPointer.creationDate ≠ np.creationDate then .error VerifyErr.segmentDeleted
      else .ok np

/-! ## GetRandomStripe (part_012 lines 818-836) -/

/-- Modelled from the spec: `eestream.RedundancyStrategy.StripeSize` is not
under src; section 4.5 defines stripe size = k × erasure-share-size. -/
def stripeSize (r : Redundancy) : Int :=
  r.minReq * r.erasureShareSize

/-- Modelled from the spec: the validation done by
`eestream.NewRedundancyStrategyFromProto` is not under src; section 3 requires
k ≤ m ≤ o ≤ n with a positive k and positive erasure-share size. -/
def validRedundancy (r : Redundancy) : Bool :=
  (0 < r.minReq) && (r.minReq ≤ r.repairThreshold) &&
  (r.repairThreshold ≤ r.successThreshold) && (r.successThreshold ≤ r.total) &&
  (0 < r.erasureShareSize)

/-- `GetRandomStripe`: reject an invalid redundancy, return stripe 0 when the
segment is smaller than one stripe (the last segment can be), otherwise sample
`rand numStripes` where `rand` stands for `rand.New(cryptoSource).Int63n`. -/
def getRandomStripe (rand : Int → Int) (p : Pointer) : Except VerifyErr Int :=
  if !(validRedundancy p.redundancy) then .error VerifyErr.otherErr
  else if p.segmentSize < stripeSize p.redundancy then .ok 0
  else .ok (rand (p.segmentSize.tdiv (stripeSize p.redundancy)))

/-! ## auditShares (part_012 lines 674-709) -/

/-- Share in the shape the infectious library uses (`infectious.Share`). -/
structure InfShare where
  number : Nat
  data : List Nat
deriving DecidableEq

/-- Modelled from the spec: `infectious.NewFEC` is an external dependency;
section 4.5 specifies a k-of-n Reed–Solomon code over GF(2^8), so parameters
need 0 < k ≤ n ≤ 256. -/
def validFEC (required total : Int) : Bool :=
  (0 < required) && (required ≤ total) && (total ≤ 256)

/-- `makeCopies`: deep-copy the audit shares into infectious shares. -/
def makeCopies (originals : List Share) : List InfShare :=
  originals.map (fun o => ⟨o.pieceNum, o.data⟩)

/-- Data of `originals[num]` in the Go map; a missing key gives nil data. -/
def lookupShareData (originals : List Share) (num : Nat) : List Nat :=
  (lookupShare originals num).data

/-- `auditShares`: build the FEC, run `Correct` (passed in as `correct`, the
external infectious routine, which corrects the copies in place), and collect
the piece numbers whose original data differs from the corrected data. -/
def auditShares (correct : List InfShare → Except Unit (List InfShare))
    (required total : Int) (originals : List Share) :
    Except Unit (List Nat × List InfShare) :=
  if !(validFEC required total) then .error ()
  else
    match correct (makeCopies originals) with
    | .error e => .error e
    | .ok copies =>
        .ok (((copies.filter (fun sh =>
          !(lookupShareData originals sh.number == sh.data))).map
            (fun sh => sh.number)), copies)

/-! ## removeFailedPieces (part_012 lines 627-647) -/

/-- The `toRemove` list built by `removeFailedPieces`: every remote piece of
the pointer whose node is in `failedNodes`. -/
def removeListOf (p : Pointer) (failedNodes : List Nat) : List RemotePiece :=
  p.pieces.filter (fun pc => failedNodes.contains pc.nodeId)

/-- Modelled from the spec: `metainfo.Service.UpdatePieces` is not under src;
section 4.3 describes it as removing `remove_pieces` from and adding
`add_pieces` to the pointer's remote-piece list. -/
def updatePiecesApply (p : Pointer) (add remove : List RemotePiece) : Pointer :=
  { p with pieces := (p.pieces.filter (fun pc => !(remove.contains pc))) ++ add }

/-- `removeFailedPieces`: no metainfo call when `failedNodes` is empty,
otherwise `UpdatePieces(path, pointer, nil, toRemove)`. Returns the updated
pointer together with the remove list that was passed. -/
def removeFailedPieces (p : Pointer) (failedNodes : List Nat) :
    Pointer × List RemotePiece :=
  if failedNodes.isEmpty then (p, [])
  else
    let toRemove := removeListOf p failedNodes
    (updatePiecesApply p [] toRemove, toRemove)

/-! ## createPendingAudits (part_012 lines 764-815) -/

/-- `createPendingAudits`: nothing pending when no node is contained;
otherwise rebuild the stripe from the corrected shares (`rebuild` is the
external `fec.Rebuild`), re-encode each contained piece number with
`encodeSingle` (the external `fec.EncodeSingle`), and record the SHA-256 of
the synthesized share (`hash` is the external `pkcrypto.SHA256Hash`). -/
def createPendingAudits (rebuild : List InfShare → Option (List Nat))
    (encodeSingle : List Nat → Nat → List Nat) (hash : List Nat → List Nat)
    (containedNodes : List (Nat × Nat)) (correctedShares : List InfShare)
    (p : Pointer) (randomIndex : Int) (path : String) :
    Except Unit (List PendingAudit) :=
  if containedNodes.isEmpty then .ok []
  else if !(validFEC p.redundancy.minReq p.redundancy.total) then .error ()
  else
    match rebuild correctedShares with
    | none => .error ()
    | some stripe =>
        .ok (containedNodes.map (fun e =>
          { nodeID := e.2
            pieceID := p.rootPieceId
            stripeIndex := randomIndex
            shareSize := p.redundancy.erasureShareSize
            expectedShareHash := hash (encodeSingle stripe e.1)
            path := path }))

/-! ## the composed Verify (part_012 lines 126-300) -/

/-- The external results and collaborator functions `Verifier.Verify` consumes
during one call: the two metainfo fetches, the order limits, the downloaded
shares (`DownloadShares` itself always returns a nil error), the random
source, and the infectious / hashing routines. -/
structure VerifyEnv where
  pointer : Option Pointer
  rand : Int → Int
  limitsOk : Bool
  orderLimits : List (Option OrderLimitStub)
  skip : List Nat
  shares : List Share
  refetch : Option Pointer
  correct : List InfShare → Except Unit (List InfShare)
  rebuild : List InfShare → Option (List Nat)
  encodeSingle : List Nat → Nat → List Nat
  hash : List Nat → List Nat
  path : String

/-- Outcome of one `Verify` call: the report (absent on the early error
returns that produce a nil report), the error, and the remove list passed to
`UpdatePieces` by `removeFailedPieces` (empty when that point is not
reached or no node failed). -/
structure VerifyResult where
  report : Option Report
  error : Option VerifyErr
  removeList : List RemotePiece
deriving DecidableEq

/-- `Verifier.Verify`, composed from the phase functions above in the order
the Go function runs them. -/
def verify (env : VerifyEnv) : VerifyResult :=
  match env.pointer with
  | none => ⟨none, some VerifyErr.segmentDeleted, []⟩
  | some pointer =>
    match getRandomStripe env.rand pointer with
    | .error e => ⟨none, some e, []⟩
    | .ok randomIndex =>
      if !env.limitsOk then ⟨none, some VerifyErr.otherErr, []⟩
      else
        let offlineNodes := getOfflineNodes pointer env.orderLimits env.skip
        match checkIfSegmentAltered pointer env.refetch with
        | .error e => ⟨some { offlines := offlineNodes }, some e, []⟩
        | .ok _ =>
          let st := classifyShares env.shares offlineNodes
          let required := pointer.redundancy.minReq
          let total := pointer.redundancy.total
          if (st.sharesToAudit.length : Int) < required then
            ⟨some { fails := st.failedNodes, offlines := st.offlineNodes },
              some VerifyErr.notEnoughShares, []⟩
          else
            match auditShares env.correct required total st.sharesToAudit with
            | .error _ =>
                ⟨some { fails := st.failedNodes, offlines := st.offlineNodes },
                  some VerifyErr.otherErr, []⟩
            | .ok (pieceNums, correctedShares) =>
                let failedNodes := st.failedNodes ++
                  pieceNums.map (fun pn => (lookupShare env.shares pn).nodeID)
                let toRemove := (removeFailedPieces pointer failedNodes).2
                let successNodes :=
                  getSuccessNodes env.shares failedNodes st.offlineNodes st.containedNodes
                match createPendingAudits env.rebuild env.encodeSingle env.hash
                    st.containedNodes correctedShares pointer randomIndex env.path with
                | .error _ =>
                    ⟨some { successes := successNodes, fails := failedNodes,
                            offlines := st.offlineNodes },
                      some VerifyErr.otherErr, toRemove⟩
                | .ok pending =>
                    ⟨some { successes := successNodes, fails := failedNodes,
                            offlines := st.offlineNodes, pendingAudits := pending },
                      none, toRemove⟩

/-! ## Reverify: the pending-audit branch logic (part_012 lines 340-569) -/

/-- Result status enum declared at the top of `Reverify`. -/
inductive RStatus where
  | skipped
  | success
  | offline
  | failed
  | contained
  | erred
deriving DecidableEq

/-- One value sent on the `Reverify` result channel; `hasErr` records whether
the `err` field of the result is non-nil. -/
structure RResult where
  nodeID : Nat
  status : RStatus
  hasErr : Bool
deriving DecidableEq

/-- The piece-number search of `Reverify` (part_012 lines 411-418): the Go
loop keeps overwriting `pieceNum`, so the last matching piece wins. -/
def findPieceNum (p : Pointer) (nodeID : Nat) : Option Nat :=
  ((p.pieces.filter (fun pc => pc.nodeId == nodeID)).map
    (fun pc => pc.pieceNum)).getLast?

/-- The `Reverify` goroutine for one pending audit, from fetching the pending
pointer through the node-present check (part_012 lines 385-428).  Returns
every result the goroutine sends on the channel for the branches decided
here, and whether `containment.Delete` was called; the continuation `rest`
stands for the remainder of the goroutine (lines 430-534: order-limit
creation, share download and hash comparison) applied to the found piece
number.  In the branch where the node is no longer in the pointer, the code
sends an `erred` result (whose `err` is the nil error left over from the
successful metainfo fetch) and then also sends a `skipped` result. -/
def reverifyPendingResults (pending : PendingAudit) (pendingPointer : Option Pointer)
    (rest : Nat → List RResult × Bool) : List RResult × Bool :=
  match pendingPointer with
  | none =>
      -- segment deleted since the node was contained
      ([⟨pending.nodeID, RStatus.skipped, false⟩], true)
  | some ptr =>
      if ptr.rootPieceId ≠ pending.pieceID then
        -- segment changed since initial containment
        ([⟨pending.nodeID, RStatus.skipped, false⟩], true)
      else
        match findPieceNum ptr pending.nodeID with
        | none =>
            -- node no longer in pointer: erred result (nil err), delete, skipped result
            ([⟨pending.nodeID, RStatus.erred, false⟩,
              ⟨pending.nodeID, RStatus.skipped, false⟩], true)
        | some pieceNum => rest pieceNum

/-- The result-collection loop of `Reverify` (part_012 lines 538-553) applied
to a list of received results: how many land in each report bucket and
whether any non-nil error was combined into the returned error. -/
def collectReverify (results : List RResult) : Report × Bool :=
  results.foldl
    (fun acc r =>
      match r.status with
      | RStatus.success => ({ acc.1 with successes := acc.1.successes ++ [r.nodeID] }, acc.2)
      | RStatus.offline => ({ acc.1 with offlines := acc.1.offlines ++ [r.nodeID] }, acc.2)
      | RStatus.failed => ({ acc.1 with fails := acc.1.fails ++ [r.nodeID] }, acc.2)
      | RStatus.contained => (acc.1, acc.2)
      | RStatus.erred => (acc.1, acc.2 || r.hasErr)
      | RStatus.skipped => (acc.1, acc.2))
    ({}, false)

/-! ## Overlay cache reputation updates (part_016 lines 438-723) -/

/-- Row of the satellite `nodes` table as touched by the reputation updates
(the dbx model behind `Get_Node_By_Id` / `Update_Node_By_Id`); float64 ratio
columns are modelled exactly over `Rat`. -/
structure NodeRow where
  id : Nat
  auditSuccessCount : Int
  totalAuditCount : Int
  auditSuccessRatioVal : Rat
  uptimeSuccessCount : Int
  totalUptimeCount : Int
  uptimeRatioVal : Rat
  wallet : String
  email : String
deriving DecidableEq

/-- `overlay.UpdateRequest` as consumed by `overlaycache.UpdateStats`. -/
structure UpdateRequest where
  nodeID : Nat
  auditSuccess : Bool
  isUp : Bool
deriving DecidableEq

/-- `updateRatioVars` (part_016 lines 699-706): bump the total, bump the
success count when the new status is positive, recompute the ratio. -/
def updateRatioVars (newStatus : Bool) (successCount totalCount : Int) :
    Int × Int × Rat :=
  let totalCount := totalCount + 1
  let successCount := if newStatus then successCount + 1 else successCount
  (successCount, totalCount, (successCount : Rat) / (totalCount : Rat))

/-- `checkRatioVars` (part_016 lines 708-723). -/
def checkRatioVars (successCount totalCount : Int) : Except Unit Rat :=
  if successCount < 0 then .error ()
  else if totalCount < 0 then .error ()
  else if successCount > totalCount then .error ()
  else if totalCount == 0 then .ok 0
  else .ok ((successCount : Rat) / (totalCount : Rat))

/-- `overlaycache.UpdateStats` (part_016 lines 438-491): runs
`updateRatioVars` on the audit counters with `req.AuditSuccess` and on the
uptime counters with `req.IsUp`, then updates exactly those six columns. -/
def updateStats (row : NodeRow) (req : UpdateRequest) : NodeRow :=
  let a := updateRatioVars req.auditSuccess row.auditSuccessCount row.totalAuditCount
  let u := updateRatioVars req.isUp row.uptimeSuccessCount row.totalUptimeCount
  { row with
    auditSuccessCount := a.1
    totalAuditCount := a.2.1
    auditSuccessRatioVal := a.2.2
    uptimeSuccessCount := u.1
    totalUptimeCount := u.2.1
    uptimeRatioVal := u.2.2 }

/-- `overlaycache.UpdateUptime` (part_016 lines 518-553): updates only the
three uptime columns. -/
def updateUptime (row : NodeRow) (isUp : Bool) : NodeRow :=
  let u := updateRatioVars isUp row.uptimeSuccessCount row.totalUptimeCount
  { row with
    uptimeSuccessCount := u.1
    totalUptimeCount := u.2.1
    uptimeRatioVal := u.2.2 }

/-- `overlaycache.UpdateAuditSuccess` (part_016 lines 556-591): updates only
the three audit columns. -/
def updateAuditSuccess (row : NodeRow) (auditSuccess : Bool) : NodeRow :=
  let a := updateRatioVars auditSuccess row.auditSuccessCount row.totalAuditCount
  { row with
    auditSuccessCount := a.1
    totalAuditCount := a.2.1
    auditSuccessRatioVal := a.2.2 }

/-- The reputation-row invariant of spec section 8 item 2: counts are
non-negative, successes never exceed totals, and each stored ratio is the
exact quotient whenever its total is positive. -/
def nodeInvariant (row : NodeRow) : Prop :=
  0 ≤ row.auditSuccessCount ∧ row.auditSuccessCount ≤ row.totalAuditCount ∧
  0 ≤ row.uptimeSuccessCount ∧ row.uptimeSuccessCount ≤ row.totalUptimeCount ∧
  (0 < row.totalAuditCount →
    row.auditSuccessRatioVal = (row.auditSuccessCount : Rat) / (row.totalAuditCount : Rat)) ∧
  (0 < row.totalUptimeCount →
    row.uptimeRatioVal = (row.uptimeSuccessCount : Rat) / (row.totalUptimeCount : Rat))

instance (row : NodeRow) : Decidable (nodeInvariant row) := by
  unfold nodeInvariant; infer_instance

/-! ## Bandwidth agreements (satellite/satellitedb/bandwidthagreement.go) -/

/-- Row of the `bwagreements` table (`serialnum` is the PRIMARY KEY). -/
structure BwRow where
  serialnum : String
  storageNodeId : Nat
  uplinkId : Nat
  action : Int
  total : Int
  createdAt : Int
  expiresAt : Int
deriving DecidableEq

/-- Order (receipt) as read by `SaveOrder`: the payer allocation's serial
number and expiration, the storage node, uplink, action and total. -/
structure BwOrder where
  payerSerial : String
  storageNodeId : Nat
  uplinkId : Nat
  action : Int
  total : Int
  expiresAt : Int
deriving DecidableEq

/-- The value `SaveOrder` inserts as `serialnum`:
`rba.PayerAllocation.SerialNumber + rba.StorageNodeId.String()`; the node-id
rendering is modelled by `toString` on the `Nat` id. -/
def orderKey (o : BwOrder) : String :=
  o.payerSerial ++ toString o.storageNodeId

/-- Whether a row with the given primary key exists. -/
def containsSerial (table : List BwRow) (key : String) : Bool :=
  table.any (fun r => r.serialnum == key)

/-- `SaveOrder`: a plain INSERT; the PRIMARY KEY on `serialnum` makes the
statement fail when the key already exists, in which case the table is left
unchanged and an error is returned. -/
def saveOrder (table : List BwRow) (o : BwOrder) (now : Int) :
    Except Unit (List BwRow) :=
  if containsSerial table (orderKey o) then .error ()
  else .ok (table ++
    [⟨orderKey o, o.storageNodeId, o.uplinkId, o.action, o.total, now, o.expiresAt⟩])

/-- The table state after a `SaveOrder` call: unchanged when the INSERT was
rejected by the primary key. -/
def saveOrderApply (table : List BwRow) (o : BwOrder) (now : Int) : List BwRow :=
  match saveOrder table o now with
  | .ok t => t
  | .error _ => table

/-- `GetTotals`: per storage node and action, the sum of `total` over rows
with `created_at` in the window `(tfrom, tto]`. -/
def getTotals (table : List BwRow) (tfrom tto : Int) (node : Nat) (action : Int) : Int :=
  ((table.filter (fun r =>
    (tfrom < r.createdAt) && (r.createdAt ≤ tto) &&
    (r.storageNodeId == node) && (r.action == action))).map
      (fun r => r.total)).sum

/-! ## Repair queue (satellite/satellitedb/repairqueue.go) -/

/-- Modelled from the spec: the `pb.InjuredSegment` message definition is not
under src; it carries the pointer path and the lost piece numbers. -/
structure InjuredSegment where
  path : String
  lostPieces : List Int
deriving DecidableEq

/-- The `injuredsegments` table: a serial id column and the marshaled segment
(`proto.Marshal` is injective per message, so `info` is represented by the
segment value itself); rows are listed in id order. -/
structure RepairQueue where
  nextId : Nat
  rows : List (Nat × InjuredSegment)
deriving DecidableEq

/-- `repairQueue.Enqueue`: `Create_Injuredsegment` appends a fresh row,
unconditionally. -/
def rqEnqueue (q : RepairQueue) (seg : InjuredSegment) : RepairQueue :=
  ⟨q.nextId + 1, q.rows ++ [(q.nextId, seg)]⟩

/-- `repairQueue.Dequeue`: `First_Injuredsegment` takes the first row, then
`Delete_Injuredsegment_By_Info` deletes every row whose info equals that
row's info; an empty table yields `ErrEmptyQueue`. -/
def rqDequeue (q : RepairQueue) : Except Unit (InjuredSegment × RepairQueue) :=
  match q.rows with
  | [] => .error ()
  | (_, seg) :: _ =>
      .ok (seg, ⟨q.nextId, q.rows.filter (fun r => !(r.2 == seg))⟩)

/-! ## Helper lemmas -/

/-- The report of a verify outcome, with the nil report read as empty. -/
def reportOf (r : VerifyResult) : Report :=
  r.report.getD {}

theorem getRandomStripe_eq_ok (rand : Int → Int) (p : Pointer)
    (hval : validRedundancy p.redundancy = true) :
    getRandomStripe rand p =
      .ok (if p.segmentSize < stripeSize p.redundancy then 0
           else rand (p.segmentSize.tdiv (stripeSize p.redundancy))) := by
  unfold getRandomStripe
  rw [hval]
  simp only [Bool.not_true, Bool.false_eq_true, if_false]
  split <;> rfl

theorem updateRatioVars_spec (b : Bool) (s t : Int) (h0 : 0 ≤ s) (hst : s ≤ t) :
    0 ≤ (updateRatioVars b s t).1 ∧
    (updateRatioVars b s t).1 ≤ (updateRatioVars b s t).2.1 ∧
    0 < (updateRatioVars b s t).2.1 ∧
    (updateRatioVars b s t).2.2 =
      ((updateRatioVars b s t).1 : Rat) / ((updateRatioVars b s t).2.1 : Rat) := by
  cases b <;> refine ⟨?_, ?_, ?_, rfl⟩ <;> simp [updateRatioVars] <;> omega

/-! ## Claim C1 -/

/-- Share whose download error is a transport-level (`rpc.Error`) error, not a
context deadline, carrying RPC status NotFound. -/
def c1FailingShare : Share :=
  ⟨some ⟨true, false, RpcCode.notFound⟩, 0, 7, []⟩

/-- C1: the claim's classification table fails on the code. A share whose
error is in the `rpc.Error` transport class and carries RPC status NotFound is
put into two buckets at once, `containedNodes` and `failedNodes`: the
unknown-transport-error branch of `Verifier.Verify` (part_012 line 196) lacks
a `continue`, so after marking the node contained control falls into the
NotFound check, which also appends it to the failed nodes.  The table of the
spec (and the parallel classification in `Reverify`, which returns right
after containing) assigns exactly one bucket per error kind. -/
theorem classifyStep_transport_notFound_double_bucket :
    (classifyStep ⟨[], [], [], []⟩ c1FailingShare).failedNodes = [7] ∧
    (classifyStep ⟨[], [], [], []⟩ c1FailingShare).containedNodes = [(0, 7)] ∧
    (classifyStep ⟨[], [], [], []⟩ c1FailingShare).offlineNodes = [] ∧
    (classifyStep ⟨[], [], [], []⟩ c1FailingShare).sharesToAudit = [] := by
  decide

/-! ## Claim C9 -/

/-- Pending audit of node 7 for piece id 5. -/
def c9Pending : PendingAudit :=
  ⟨7, 5, 0, 1, [], "pr/l/b/e"⟩

/-- Pointer whose root piece id still matches the pending audit but whose
remote-piece list no longer contains node 7. -/
def c9Pointer : Pointer :=
  ⟨0, 4, 5, ⟨1, 1, 1, 1, 4⟩, [⟨0, 9⟩]⟩

/-- C9: the silent drop fails on the code. When the node of a pending audit
has vanished from its segment's pointer, `Reverify` deletes the containment
entry, but its goroutine sends TWO results for the node on the channel: an
`erred` result (whose error is the nil error left from the successful
metainfo fetch, so nothing is combined into the returned error) and then a
`skipped` result (part_012 lines 419-428).  The collection loop reads only
`len(pieces)` results, so the extra send can displace another node's result;
the node is not reported exactly once. -/
theorem reverify_vanished_node_sends_two_results :
    reverifyPendingResults c9Pending (some c9Pointer) (fun _ => ([], false)) =
      ([⟨7, RStatus.erred, false⟩, ⟨7, RStatus.skipped, false⟩], true) ∧
    (reverifyPendingResults c9Pending (some c9Pointer) (fun _ => ([], false))).1.length = 2 ∧
    collectReverify
      (reverifyPendingResults c9Pending (some c9Pointer) (fun _ => ([], false))).1 =
      ({}, false) := by
  refine ⟨rfl, rfl, rfl⟩

/-! ## Claim C5 -/

/-- Node row with all counters zero. -/
def c5Row : NodeRow :=
  ⟨1, 0, 0, 0, 0, 0, 0, "w", "e"⟩

/-- Update request recording an audit success for a node that did not answer
an uptime check. -/
def c5Req : UpdateRequest :=
  ⟨1, true, false⟩

/-- C5 counterexample: an audit success applied through
`overlaycache.UpdateStats` does not change only the audit counters; the call
also increments `total_uptime_count` (and would increment
`uptime_success_count` had `IsUp` been set), because `UpdateStats` runs
`updateRatioVars` on both counter pairs unconditionally. -/
theorem updateStats_audit_success_touches_uptime :
    c5Req.auditSuccess = true ∧
    (updateStats c5Row c5Req).auditSuccessCount = c5Row.auditSuccessCount + 1 ∧
    (updateStats c5Row c5Req).totalAuditCount = c5Row.totalAuditCount + 1 ∧
    (updateStats c5Row c5Req).totalUptimeCount ≠ c5Row.totalUptimeCount := by
  refine ⟨rfl, rfl, rfl, by decide⟩

/-- C5 (amended): `overlaycache.UpdateStats` always increments both
`total_audit_count` and `total_uptime_count`, increments
`audit_success_count` exactly when the request records an audit success and
`uptime_success_count` exactly when it records the node as up, and changes no
other column of the row; an offline outcome applied through
`overlaycache.UpdateUptime` with `isUp = false` increments
`total_uptime_count` only, leaving `uptime_success_count` and both audit
counters (and every non-uptime column) unchanged. -/
theorem updateStats_and_updateUptime_counter_frame (row : NodeRow) (req : UpdateRequest) :
    (updateStats row req).totalAuditCount = row.totalAuditCount + 1 ∧
    (updateStats row req).auditSuccessCount =
      row.auditSuccessCount + (if req.auditSuccess then 1 else 0) ∧
    (updateStats row req).totalUptimeCount = row.totalUptimeCount + 1 ∧
    (updateStats row req).uptimeSuccessCount =
      row.uptimeSuccessCount + (if req.isUp then 1 else 0) ∧
    (updateStats row req).id = row.id ∧
    (updateStats row req).wallet = row.wallet ∧
    (updateStats row req).email = row.email ∧
    (updateUptime row false).totalUptimeCount = row.totalUptimeCount + 1 ∧
    (updateUptime row false).uptimeSuccessCount = row.uptimeSuccessCount ∧
    (updateUptime row false).auditSuccessCount = row.auditSuccessCount ∧
    (updateUptime row false).totalAuditCount = row.totalAuditCount ∧
    (updateUptime row false).auditSuccessRatioVal = row.auditSuccessRatioVal ∧
    (updateUptime row false).id = row.id ∧
    (updateUptime row false).wallet = row.wallet ∧
    (updateUptime row false).email = row.email := by
  unfold updateStats updateUptime updateRatioVars
  cases hA : req.auditSuccess <;> cases hU : req.isUp <;> simp

/-! ## Claim C6 -/

/-- C6: each of `UpdateStats`, `UpdateUptime` and `UpdateAuditSuccess`
preserves the reputation invariant: counts stay in `0 ≤ success ≤ total` and
each stored ratio equals the exact quotient of its counts whenever the total
is positive (the updated pair is recomputed as `success / total`; a pair the
update does not touch keeps the invariant it had). -/
theorem reputation_updates_preserve_invariant (row : NodeRow) (req : UpdateRequest)
    (b c : Bool) (h : nodeInvariant row) :
    nodeInvariant (updateStats row req) ∧
    nodeInvariant (updateUptime row b) ∧
    nodeInvariant (updateAuditSuccess row c) := by
  obtain ⟨h1, h2, h3, h4, h5, h6⟩ := h
  obtain ⟨a1, a2, a3, a4⟩ := updateRatioVars_spec req.auditSuccess _ _ h1 h2
  obtain ⟨u1, u2, u3, u4⟩ := updateRatioVars_spec req.isUp _ _ h3 h4
  obtain ⟨b1, b2, b3, b4⟩ := updateRatioVars_spec b _ _ h3 h4
  obtain ⟨c1, c2, c3, c4⟩ := updateRatioVars_spec c _ _ h1 h2
  refine ⟨⟨a1, a2, u1, u2, fun _ => a4, fun _ => u4⟩,
    ⟨h1, h2, b1, b2, fun hp => h5 hp, fun _ => b4⟩,
    ⟨c1, c2, h3, h4, fun _ => c4, fun hp => h6 hp⟩⟩

/-- C6 witness: the invariant on a freshly zeroed row, propagated through one
update of each kind. -/
theorem reputation_updates_preserve_invariant_witness :
    nodeInvariant (updateStats c5Row ⟨1, true, true⟩) ∧
    nodeInvariant (updateUptime c5Row false) ∧
    nodeInvariant (updateAuditSuccess c5Row true) :=
  reputation_updates_preserve_invariant c5Row ⟨1, true, true⟩ false true (by decide)

/-! ## Claim C7 -/

theorem containsSerial_saveOrderApply_self (table : List BwRow) (o : BwOrder) (now : Int) :
    containsSerial (saveOrderApply table o now) (orderKey o) = true := by
  by_cases h : containsSerial table (orderKey o) = true
  · simp [saveOrderApply, saveOrder, h]
  · rw [Bool.not_eq_true] at h
    have hso : saveOrder table o now = .ok (table ++
        [⟨orderKey o, o.storageNodeId, o.uplinkId, o.action, o.total, now, o.expiresAt⟩]) := by
      unfold saveOrder; rw [h]; rfl
    have hdef2 : saveOrderApply table o now
        = match saveOrder table o now with
          | .ok t => t
          | .error _ => table := rfl
    rw [hdef2, hso]
    unfold containsSerial
    rw [List.any_append]
    simp

/-- C7: the `bwagreements` PRIMARY KEY on `serialnum` (the serial number
concatenated with the storage node id) makes a second settlement of the same
(serial number, storage node) pair fail: the second `SaveOrder` returns an
error, inserts no row, leaves the table unchanged, and therefore leaves every
`GetTotals` sum unchanged. -/
theorem saveOrder_duplicate_serial_noop (table : List BwRow) (o o2 : BwOrder)
    (now now2 tfrom tto : Int) (node : Nat) (action : Int)
    (hs : o2.payerSerial = o.payerSerial) (hn : o2.storageNodeId = o.storageNodeId) :
    saveOrder (saveOrderApply table o now) o2 now2 = .error () ∧
    saveOrderApply (saveOrderApply table o now) o2 now2 = saveOrderApply table o now ∧
    getTotals (saveOrderApply (saveOrderApply table o now) o2 now2) tfrom tto node action =
      getTotals (saveOrderApply table o now) tfrom tto node action := by
  have hkey : orderKey o2 = orderKey o := by
    unfold orderKey; rw [hs, hn]
  have hmem : containsSerial (saveOrderApply table o now) (orderKey o2) = true := by
    rw [hkey]; exact containsSerial_saveOrderApply_self table o now
  have herr : saveOrder (saveOrderApply table o now) o2 now2 = .error () := by
    unfold saveOrder; rw [hmem]; rfl
  have hdef : saveOrderApply (saveOrderApply table o now) o2 now2
      = match saveOrder (saveOrderApply table o now) o2 now2 with
        | .ok t => t
        | .error _ => saveOrderApply table o now := rfl
  have happ : saveOrderApply (saveOrderApply table o now) o2 now2 = saveOrderApply table o now := by
    rw [hdef, herr]
  exact ⟨herr, happ, by rw [happ]⟩

/-- Concrete order used in the C7 witness. -/
def c7Order : BwOrder :=
  ⟨"serial-a", 3, 4, 1, 100, 50⟩

/-- C7 witness: settling `c7Order` twice on an empty table errors the second
time and leaves the table and the totals of its node unchanged. -/
theorem saveOrder_duplicate_serial_noop_witness :
    saveOrder (saveOrderApply [] c7Order 5) c7Order 6 = .error () ∧
    saveOrderApply (saveOrderApply [] c7Order 5) c7Order 6 = saveOrderApply [] c7Order 5 ∧
    getTotals (saveOrderApply (saveOrderApply [] c7Order 5) c7Order 6) 0 10 3 1 =
      getTotals (saveOrderApply [] c7Order 5) 0 10 3 1 :=
  saveOrder_duplicate_serial_noop [] c7Order c7Order 5 6 0 10 3 1 rfl rfl

/-! ## Claim C8 -/

/-- Injured segment used in the C8 counterexample. -/
def c8SegA : InjuredSegment :=
  ⟨"pr/l/b/e", [1, 2]⟩

/-- Second, distinct injured segment for the C8 ordering statement. -/
def c8SegB : InjuredSegment :=
  ⟨"pr/l/b/f", [0, 1, 2]⟩

/-- C8 counterexample: `repairQueue.Enqueue` does not deduplicate by pointer
path; enqueuing the same segment twice creates a second `injuredsegments`
row, both rows carrying the same path. -/
theorem rqEnqueue_duplicate_creates_second_row :
    (rqEnqueue (rqEnqueue ⟨0, []⟩ c8SegA) c8SegA).rows.length = 2 ∧
    ((rqEnqueue (rqEnqueue ⟨0, []⟩ c8SegA) c8SegA).rows.filter
      (fun r => r.2.path == c8SegA.path)).length = 2 := by
  refine ⟨rfl, rfl⟩

/-- C8 (amended): the repair queue is ordered by insertion (`Dequeue` takes
the first row of the serial-id ordered `injuredsegments` table), not by
injury severity; `Enqueue` of an already-queued segment creates a second row;
duplicates collapse only at `Dequeue`, whose delete-by-info removes every row
whose marshaled info equals the dequeued segment's. -/
theorem rqDequeue_insertion_order_and_dedup (q : RepairQueue)
    (segA segB : InjuredSegment) (hq : q.rows = []) (hne : segB ≠ segA) :
    (rqEnqueue (rqEnqueue q segA) segA).rows.length = 2 ∧
    rqDequeue (rqEnqueue (rqEnqueue q segA) segA) =
      .ok (segA, ⟨q.nextId + 2, []⟩) ∧
    rqDequeue (rqEnqueue (rqEnqueue q segA) segB) =
      .ok (segA, ⟨q.nextId + 2, [(q.nextId + 1, segB)]⟩) := by
  refine ⟨?_, ?_, ?_⟩ <;> simp [rqEnqueue, rqDequeue, hq, hne]

/-- C8 witness: the amended behaviour on the empty queue with the two
concrete segments. -/
theorem rqDequeue_insertion_order_and_dedup_witness :
    (rqEnqueue (rqEnqueue ⟨0, []⟩ c8SegA) c8SegA).rows.length = 2 ∧
    rqDequeue (rqEnqueue (rqEnqueue ⟨0, []⟩ c8SegA) c8SegA) =
      .ok (c8SegA, ⟨0 + 2, []⟩) ∧
    rqDequeue (rqEnqueue (rqEnqueue ⟨0, []⟩ c8SegA) c8SegB) =
      .ok (c8SegA, ⟨0 + 2, [(0 + 1, c8SegB)]⟩) :=
  rqDequeue_insertion_order_and_dedup ⟨0, []⟩ c8SegA c8SegB rfl (by decide)

/-! ## Claim C10 -/

/-- C10: `GetRandomStripe` is total and in range for every remote pointer
carrying a valid redundancy scheme: it always returns an index (never an
error); when the segment is smaller than one stripe (k × erasure-share-size)
it returns index 0 for every random source, so the zero divisor is never
sampled; otherwise the returned index satisfies
`0 ≤ index < segment_size / stripe_size` whenever the random source honours
the `Int63n` contract. -/
theorem getRandomStripe_total_and_in_range (rand rand2 : Int → Int) (p : Pointer)
    (hval : validRedundancy p.redundancy = true)
    (hseg : 0 ≤ p.segmentSize)
    (hrand : ∀ n : Int, 0 < n → 0 ≤ rand n ∧ rand n < n) :
    getRandomStripe rand p =
      .ok (if p.segmentSize < stripeSize p.redundancy then 0
           else rand (p.segmentSize.tdiv (stripeSize p.redundancy))) ∧
    (p.segmentSize < stripeSize p.redundancy →
      getRandomStripe rand p = .ok 0 ∧ getRandomStripe rand2 p = .ok 0) ∧
    (stripeSize p.redundancy ≤ p.segmentSize →
      0 ≤ rand (p.segmentSize.tdiv (stripeSize p.redundancy)) ∧
      rand (p.segmentSize.tdiv (stripeSize p.redundancy)) <
        p.segmentSize.tdiv (stripeSize p.redundancy)) := by
  have hv := hval
  simp only [validRedundancy, Bool.and_eq_true, decide_eq_true_eq] at hv
  have hstripe : 0 < stripeSize p.redundancy := mul_pos hv.1.1.1.1 hv.2
  refine ⟨getRandomStripe_eq_ok rand p hval, ?_, ?_⟩
  · intro hlt
    constructor
    · rw [getRandomStripe_eq_ok rand p hval, if_pos hlt]
    · rw [getRandomStripe_eq_ok rand2 p hval, if_pos hlt]
  · intro hge
    have hq0 : 0 < p.segmentSize.tdiv (stripeSize p.redundancy) := by
      rw [Int.tdiv_eq_ediv hseg (le_of_lt hstripe)]
      have h1 : (1 : Int) ≤ p.segmentSize / stripeSize p.redundancy :=
        (Int.le_ediv_iff_mul_le hstripe).mpr (by rw [one_mul]; exact hge)
      omega
    exact hrand _ hq0

/-- Pointer for the C10 witness: two stripes of size 4. -/
def c10Pointer : Pointer :=
  ⟨0, 8, 1, ⟨1, 1, 1, 1, 4⟩, []⟩

/-- C10 witness at a concrete pointer and the random source `n - 1`. -/
theorem getRandomStripe_total_and_in_range_witness :
    getRandomStripe (fun n => n - 1) c10Pointer =
      .ok (if c10Pointer.segmentSize < stripeSize c10Pointer.redundancy then 0
           else (fun n : Int => n - 1)
             (c10Pointer.segmentSize.tdiv (stripeSize c10Pointer.redundancy))) ∧
    (c10Pointer.segmentSize < stripeSize c10Pointer.redundancy →
      getRandomStripe (fun n => n - 1) c10Pointer = .ok 0 ∧
      getRandomStripe (fun _ => 0) c10Pointer = .ok 0) ∧
    (stripeSize c10Pointer.redundancy ≤ c10Pointer.segmentSize →
      0 ≤ (fun n : Int => n - 1)
        (c10Pointer.segmentSize.tdiv (stripeSize c10Pointer.redundancy)) ∧
      (fun n : Int => n - 1)
        (c10Pointer.segmentSize.tdiv (stripeSize c10Pointer.redundancy)) <
        c10Pointer.segmentSize.tdiv (stripeSize c10Pointer.redundancy)) :=
  getRandomStripe_total_and_in_range (fun n => n - 1) (fun _ => 0) c10Pointer
    (by decide) (by decide)
    (fun n hn => ⟨by change 0 ≤ n - 1; omega, by change n - 1 < n; omega⟩)

/-! ## Claims C2 and C3: helper lemmas on the altered-segment check -/

theorem checkIfSegmentAltered_ok (p p2 : Pointer) (hcd : p2.creationDate = p.creationDate) :
    checkIfSegmentAltered p (some p2) = .ok p2 := by
  simp [checkIfSegmentAltered, hcd]

theorem checkIfSegmentAltered_err (p : Pointer) (refetch : Option Pointer)
    (h : refetch = none ∨ ∃ p2, refetch = some p2 ∧ p2.creationDate ≠ p.creationDate) :
    checkIfSegmentAltered p refetch = .error VerifyErr.segmentDeleted := by
  rcases h with h | ⟨p2, h, hne⟩
  · subst h; rfl
  · subst h
    have hne2 : p.creationDate ≠ p2.creationDate := fun hh => hne hh.symm
    simp [checkIfSegmentAltered, hne2]

/-! ## Claim C2 -/

/-- C2: when fewer than k (the redundancy minimum) candidate shares were
downloaded successfully, `Verify` is inconclusive: it returns the report
whose `Fails` and `Offlines` are exactly the nodes classified so far, with no
successes and no pending audits, together with `ErrNotEnoughShares`, and no
`UpdatePieces` remove list is produced. -/
theorem verify_not_enough_shares (env : VerifyEnv) (p p2 : Pointer)
    (hp : env.pointer = some p)
    (hval : validRedundancy p.redundancy = true)
    (hlim : env.limitsOk = true)
    (hre : env.refetch = some p2)
    (hcd : p2.creationDate = p.creationDate)
    (hfew : ((classifyShares env.shares
        (getOfflineNodes p env.orderLimits env.skip)).sharesToAudit.length : Int)
        < p.redundancy.minReq) :
    verify env = ⟨some
      { successes := []
        fails := (classifyShares env.shares
          (getOfflineNodes p env.orderLimits env.skip)).failedNodes
        offlines := (classifyShares env.shares
          (getOfflineNodes p env.orderLimits env.skip)).offlineNodes
        pendingAudits := [] },
      some VerifyErr.notEnoughShares, []⟩ := by
  unfold verify
  simp only [hp, getRandomStripe_eq_ok env.rand p hval, hlim, Bool.not_true,
    Bool.false_eq_true, if_false, hre, checkIfSegmentAltered_ok p p2 hcd]
  rw [if_pos hfew]

/-- Environment for the C2 witness: the single node is offline (no order
limit was created for it), so zero candidates against k = 1. -/
def c2Pointer : Pointer :=
  ⟨3, 4, 1, ⟨1, 1, 1, 1, 4⟩, [⟨0, 3⟩]⟩

/-- VerifyEnv of the C2 witness. -/
def c2Env : VerifyEnv :=
  { pointer := some c2Pointer
    rand := fun _ => 0
    limitsOk := true
    orderLimits := []
    skip := []
    shares := []
    refetch := some c2Pointer
    correct := fun c => .ok c
    rebuild := fun _ => some []
    encodeSingle := fun _ _ => []
    hash := fun x => x
    path := "pr/l/b/e" }

/-- C2 witness: the concrete audit is inconclusive with node 3 reported
offline and nobody credited. -/
theorem verify_not_enough_shares_witness :
    verify c2Env = ⟨some
      { successes := []
        fails := (classifyShares c2Env.shares
          (getOfflineNodes c2Pointer c2Env.orderLimits c2Env.skip)).failedNodes
        offlines := (classifyShares c2Env.shares
          (getOfflineNodes c2Pointer c2Env.orderLimits c2Env.skip)).offlineNodes
        pendingAudits := [] },
      some VerifyErr.notEnoughShares, []⟩ :=
  verify_not_enough_shares c2Env c2Pointer c2Pointer rfl (by decide) rfl rfl rfl (by decide)

/-! ## Claim C3 -/

/-- C3: when the re-fetched pointer is gone or its creation date differs from
the pre-image, `Verify` aborts with the segment-deleted error and the report
credits no successes, no fails and no pending audits (only the offline nodes
recorded before the downloads), and no `UpdatePieces` remove list is
produced. -/
theorem verify_segment_altered_aborts (env : VerifyEnv) (p : Pointer)
    (hp : env.pointer = some p)
    (hval : validRedundancy p.redundancy = true)
    (hlim : env.limitsOk = true)
    (halt : env.refetch = none ∨
      ∃ p2, env.refetch = some p2 ∧ p2.creationDate ≠ p.creationDate) :
    verify env = ⟨some
      { successes := []
        fails := []
        offlines := getOfflineNodes p env.orderLimits env.skip
        pendingAudits := [] },
      some VerifyErr.segmentDeleted, []⟩ := by
  unfold verify
  simp only [hp, getRandomStripe_eq_ok env.rand p hval, hlim, Bool.not_true,
    Bool.false_eq_true, if_false, checkIfSegmentAltered_err p env.refetch halt]

/-- Pointer of the C3 witness before the audit. -/
def c3Pointer : Pointer :=
  ⟨3, 4, 1, ⟨1, 1, 1, 1, 4⟩, [⟨0, 3⟩]⟩

/-- Re-fetched pointer of the C3 witness: same content except a different
creation date (a repair or delete raced the audit). -/
def c3PointerAltered : Pointer :=
  ⟨9, 4, 1, ⟨1, 1, 1, 1, 4⟩, [⟨0, 3⟩]⟩

/-- VerifyEnv of the C3 witness: the share of node 3 downloaded fine, but the
pointer was replaced mid-audit. -/
def c3Env : VerifyEnv :=
  { pointer := some c3Pointer
    rand := fun _ => 0
    limitsOk := true
    orderLimits := [some ⟨3⟩]
    skip := []
    shares := [⟨none, 0, 3, [1, 2, 3, 4]⟩]
    refetch := some c3PointerAltered
    correct := fun c => .ok c
    rebuild := fun _ => some []
    encodeSingle := fun _ _ => []
    hash := fun x => x
    path := "pr/l/b/e" }

/-- C3 witness: the concrete altered audit aborts crediting nobody. -/
theorem verify_segment_altered_aborts_witness :
    verify c3Env = ⟨some
      { successes := []
        fails := []
        offlines := getOfflineNodes c3Pointer c3Env.orderLimits c3Env.skip
        pendingAudits := [] },
      some VerifyErr.segmentDeleted, []⟩ :=
  verify_segment_altered_aborts c3Env c3Pointer rfl (by decide) rfl
    (Or.inr ⟨c3PointerAltered, rfl, by decide⟩)

/-! ## Claim C4: helper lemmas -/

theorem removeFailedPieces_snd (p : Pointer) (f : List Nat) (hf : f ≠ []) :
    (removeFailedPieces p f).2 = removeListOf p f := by
  unfold removeFailedPieces
  rw [if_neg (by simpa [List.isEmpty_iff] using hf)]

theorem updatePieces_no_failed_left (p : Pointer) (f : List Nat) :
    ((updatePiecesApply p [] (removeListOf p f)).pieces.filter
      (fun pc => f.contains pc.nodeId)) = [] := by
  unfold updatePiecesApply removeListOf
  rw [List.filter_eq_nil_iff]
  intro pc hpc
  simp only [List.append_nil, List.mem_filter, Bool.not_eq_true] at hpc
  obtain ⟨hmem, hnc⟩ := hpc
  intro hcont
  have : pc ∈ p.pieces.filter (fun q => f.contains q.nodeId) :=
    List.mem_filter.mpr ⟨hmem, hcont⟩
  rw [← List.elem_iff] at this
  simp [List.contains] at hnc this
  rcases hnc with h | h
  · exact h this.1
  · exact h this.2

/-! ## Claim C4 -/

/-- C4: with at least k successfully downloaded candidate shares, `Verify`
runs the candidates through the erasure code's `Correct`; every candidate
whose downloaded bytes differ from the corrected share with its piece number
is classified as fail, the remove list handed to `UpdatePieces` is exactly
the pointer's pieces whose node is in the report's fail list, and the
pointer resulting from that `UpdatePieces` call retains no piece of a failed
node. -/
theorem verify_audit_mismatch_fails_and_removes
    (env : VerifyEnv) (p p2 : Pointer) (st : ClassifyState)
    (pieceNums : List Nat) (corrected : List InfShare) (c : InfShare)
    (hp : env.pointer = some p)
    (hval : validRedundancy p.redundancy = true)
    (hlim : env.limitsOk = true)
    (hre : env.refetch = some p2)
    (hcd : p2.creationDate = p.creationDate)
    (hst : st = classifyShares env.shares (getOfflineNodes p env.orderLimits env.skip))
    (henough : p.redundancy.minReq ≤ (st.sharesToAudit.length : Int))
    (haudit : auditShares env.correct p.redundancy.minReq p.redundancy.total
        st.sharesToAudit = .ok (pieceNums, corrected))
    (hc : c ∈ corrected)
    (hdiff : lookupShareData st.sharesToAudit c.number ≠ c.data) :
    (lookupShare env.shares c.number).nodeID ∈ (reportOf (verify env)).fails ∧
    (verify env).removeList = removeListOf p ((reportOf (verify env)).fails) ∧
    ((updatePiecesApply p [] ((verify env).removeList)).pieces.filter
      (fun pc => ((reportOf (verify env)).fails).contains pc.nodeId)) = [] := by
  subst hst
  -- unpack auditShares
  have hfec : validFEC p.redundancy.minReq p.redundancy.total = true := by
    by_contra hh
    rw [Bool.not_eq_true] at hh
    unfold auditShares at haudit
    rw [hh] at haudit
    simp at haudit
  unfold auditShares at haudit
  rw [hfec] at haudit
  simp only [Bool.not_true, Bool.false_eq_true, if_false] at haudit
  rcases hco : env.correct (makeCopies (classifyShares env.shares
      (getOfflineNodes p env.orderLimits env.skip)).sharesToAudit) with e | copies
  · rw [hco] at haudit; simp at haudit
  rw [hco] at haudit
  simp only [Except.ok.injEq, Prod.mk.injEq] at haudit
  obtain ⟨hnums, hcorr⟩ := haudit
  -- the mismatching candidate's piece number is collected
  have hmemnum : c.number ∈ pieceNums := by
    rw [← hnums]
    refine List.mem_map.mpr ⟨c, List.mem_filter.mpr ⟨hcorr ▸ hc, ?_⟩, rfl⟩
    simp only [Bool.not_eq_eq_eq_not, Bool.not_true, beq_eq_false_iff_ne, ne_eq]
    exact hdiff
  -- reduce verify to its final branches
  unfold verify
  simp only [hp, getRandomStripe_eq_ok env.rand p hval, hlim, Bool.not_true,
    Bool.false_eq_true, if_false, hre, checkIfSegmentAltered_ok p p2 hcd]
  rw [if_neg (not_lt.mpr henough)]
  rw [show auditShares env.correct p.redundancy.minReq p.redundancy.total
      (classifyShares env.shares (getOfflineNodes p env.orderLimits env.skip)).sharesToAudit
      = .ok (pieceNums, copies) by
    unfold auditShares
    rw [hfec]
    simp only [Bool.not_true, Bool.false_eq_true, if_false, hco]
    rw [hnums, hcorr]]
  simp only
  -- the fail list past this point
  have hmemfail : (lookupShare env.shares c.number).nodeID ∈
      (classifyShares env.shares (getOfflineNodes p env.orderLimits env.skip)).failedNodes ++
      pieceNums.map (fun pn => (lookupShare env.shares pn).nodeID) :=
    List.mem_append.mpr (Or.inr (List.mem_map.mpr ⟨c.number, hmemnum, rfl⟩))
  have hfne : (classifyShares env.shares (getOfflineNodes p env.orderLimits env.skip)).failedNodes ++
      pieceNums.map (fun pn => (lookupShare env.shares pn).nodeID) ≠ [] :=
    fun hh => by rw [hh] at hmemfail; exact List.not_mem_nil _ hmemfail
  rcases hpa : createPendingAudits env.rebuild env.encodeSingle env.hash
      (classifyShares env.shares (getOfflineNodes p env.orderLimits env.skip)).containedNodes
      copies p
      (if p.segmentSize < stripeSize p.redundancy then 0
       else env.rand (p.segmentSize.tdiv (stripeSize p.redundancy))) env.path with e | pending
  all_goals
    simp only [reportOf, Option.getD_some]
    rw [removeFailedPieces_snd p _ hfne]
    exact ⟨hmemfail, rfl, updatePieces_no_failed_left p _⟩

/-- Pointer of the C4 witness: one share of size 4 held by node 3. -/
def c4Pointer : Pointer :=
  ⟨3, 4, 1, ⟨1, 1, 1, 1, 4⟩, [⟨0, 3⟩]⟩

/-- Corrected share of the C4 witness, differing from the downloaded bytes. -/
def c4Corrected : InfShare :=
  ⟨0, [8, 8, 8, 8]⟩

/-- VerifyEnv of the C4 witness: node 3 returned bytes that `Correct`
replaces, so its audit fails. -/
def c4Env : VerifyEnv :=
  { pointer := some c4Pointer
    rand := fun _ => 0
    limitsOk := true
    orderLimits := [some ⟨3⟩]
    skip := []
    shares := [⟨none, 0, 3, [9, 9, 9, 9]⟩]
    refetch := some c4Pointer
    correct := fun _ => .ok [c4Corrected]
    rebuild := fun _ => some []
    encodeSingle := fun _ _ => []
    hash := fun x => x
    path := "pr/l/b/e" }

/-- C4 witness: in the concrete audit, node 3 lands in the fail list, its
piece is in the remove list, and the updated pointer retains no failed
piece. -/
theorem verify_audit_mismatch_fails_and_removes_witness :
    (lookupShare c4Env.shares c4Corrected.number).nodeID ∈ (reportOf (verify c4Env)).fails ∧
    (verify c4Env).removeList = removeListOf c4Pointer ((reportOf (verify c4Env)).fails) ∧
    ((updatePiecesApply c4Pointer [] ((verify c4Env).removeList)).pieces.filter
      (fun pc => ((reportOf (verify c4Env)).fails).contains pc.nodeId)) = [] :=
  verify_audit_mismatch_fails_and_removes c4Env c4Pointer c4Pointer
    (classifyShares c4Env.shares (getOfflineNodes c4Pointer c4Env.orderLimits c4Env.skip))
    [0] [c4Corrected] c4Corrected
    rfl (by decide) rfl rfl rfl rfl (by decide) rfl (by decide) (by decide)

end StorjSpec
